import Mathlib

/-!
Verification of the YM2149 GPIO bus driver (`src/lib.rs`).

The driver is straight-line code over nine output pins (BDIR, BC1, D0..D7)
and a blocking microsecond delay provider.  Every operation is a fixed
sequence of pin-level sets and delays, aborting at the first pin failure
(Rust `?` on each fallible pin set).  We embed each Rust function as the
`List Step` of pin-set / delay actions it issues, and give an executor
`exec` that replays such a list against a failure oracle: the oracle
decides whether the n-th pin-set attempt fails (pin sets are the only
fallible actions; `delay_us` cannot fail).  `exec` returns the actions
actually performed, the final pin-set counter, and the first error, if
any, wrapped in `Error.PinError` exactly as the Rust code wraps the
underlying pin error.
-/

namespace Ym2149

/-- The nine output pins owned by the driver. -/
inductive Pin
  | bdir | bc1 | d0 | d1 | d2 | d3 | d4 | d5 | d6 | d7
deriving DecidableEq, Repr

/-- One pin-level action of the driver: set a pin to a boolean level, or
block for `us` microseconds on the delay provider. -/
inductive Step
  | setp (p : Pin) (level : Bool)
  | delay (us : Nat)
deriving DecidableEq, Repr

/-- Mirrors Rust `enum Error<P> { PinError(P::Error) }`: the sole error
kind, carrying the underlying pin implementation's error value. -/
inductive Error (ε : Type)
  | PinError (e : ε)
deriving DecidableEq

/-- A failure oracle: whether the n-th pin-set attempt fails, and with
which underlying pin error. -/
def Oracle (ε : Type) : Type := Nat → Option ε

/-- The oracle under which no pin set fails. -/
def noFail {ε : Type} : Oracle ε := fun _ => none

/-- The oracle under which exactly the `j`-th pin-set attempt fails with
underlying error `e`. -/
def failAt {ε : Type} (j : Nat) (e : ε) : Oracle ε :=
  fun n => if n = j then some e else none

/-- Replay a step list against a failure oracle, starting at pin-set
counter `k`.  Returns (steps actually performed, final counter, first
error if any).  A failing pin set performs nothing and aborts the rest of
the list, mirroring Rust `?`-propagation. -/
def exec {ε : Type} (fail : Oracle ε) : List Step → Nat → List Step × Nat × Option (Error ε)
  | [], k => ([], k, none)
  | Step.delay n :: rest, k =>
    let r := exec fail rest k
    (Step.delay n :: r.1, r.2)
  | Step.setp p b :: rest, k =>
    match fail k with
    | some e => ([], k, some (Error.PinError e))
    | none =>
      let r := exec fail rest (k + 1)
      (Step.setp p b :: r.1, r.2)

/-! ### The driver's operations, translated from `src/lib.rs` -/

/-- Rust `write_mode`: BDIR high, BC1 low. -/
def write_mode : List Step :=
  [Step.setp Pin.bdir true, Step.setp Pin.bc1 false]

/-- Rust `address_mode`: BDIR high, BC1 high. -/
def address_mode : List Step :=
  [Step.setp Pin.bdir true, Step.setp Pin.bc1 true]

/-- Rust `inactive_mode`: BDIR low, BC1 low. -/
def inactive_mode : List Step :=
  [Step.setp Pin.bdir false, Step.setp Pin.bc1 false]

/-- Rust `write_u8`: drive D0..D7 with the bits of `data`
(`data & 0x01 == 1`, `(data >> k) & 0x01 == 1` for k = 1..7). -/
def write_u8 (data : Nat) : List Step :=
  [Step.setp Pin.d0 (data &&& 0x01 == 1),
   Step.setp Pin.d1 ((data >>> 1) &&& 0x01 == 1),
   Step.setp Pin.d2 ((data >>> 2) &&& 0x01 == 1),
   Step.setp Pin.d3 ((data >>> 3) &&& 0x01 == 1),
   Step.setp Pin.d4 ((data >>> 4) &&& 0x01 == 1),
   Step.setp Pin.d5 ((data >>> 5) &&& 0x01 == 1),
   Step.setp Pin.d6 ((data >>> 6) &&& 0x01 == 1),
   Step.setp Pin.d7 ((data >>> 7) &&& 0x01 == 1)]

/-- Rust `set_address`: address mode, drive the address byte, 1 µs delay,
inactive mode, 1 µs delay. -/
def set_address (address : Nat) : List Step :=
  address_mode ++ write_u8 address ++ [Step.delay 1] ++ inactive_mode ++ [Step.delay 1]

/-- Rust `set_data`: drive the data byte, write mode, 1 µs delay,
inactive mode, 1 µs delay. -/
def set_data (data : Nat) : List Step :=
  write_u8 data ++ write_mode ++ [Step.delay 1] ++ inactive_mode ++ [Step.delay 1]

/-- Rust `set_register_value`: `set_address` then `set_data`. -/
def set_register_value (address data : Nat) : List Step :=
  set_address address ++ set_data data

/-- Rust `clear_all_registers`: `for i in 0..16 { set_register_value(i, 0)? }`. -/
def clear_all_registers : List Step :=
  (List.range 16).flatMap fun i => set_register_value i 0

/-- Rust `new`: construction takes ownership of the pins and forces
inactive mode before returning the instance. -/
def new : List Step :=
  inactive_mode

/-- Rust `enum Channel { A, B, C }`. -/
inductive Channel
  | A | B | C
deriving DecidableEq, Repr

/-- Rust `enum ChannelLevel { Fixed(u8), Envelope }`. -/
inductive ChannelLevel
  | Fixed (level : Nat)
  | Envelope
deriving DecidableEq, Repr

/-- Rust `enum IoPort { A, B }`. -/
inductive IoPort
  | A | B
deriving DecidableEq, Repr

/-- Rust `bitflags! EnvelopeShape`: a bitset of the four envelope flags
Hold (bit 0), Alternate (bit 1), Attack (bit 2), Continue (bit 3). -/
structure EnvelopeShape where
  hold : Bool
  alt : Bool
  att : Bool
  cont : Bool
deriving DecidableEq, Repr

/-- Rust `EnvelopeShape::bits()`: the raw byte of the bitset. -/
def EnvelopeShape.bits (s : EnvelopeShape) : Nat :=
  (if s.hold then 0b0001 else 0) + (if s.alt then 0b0010 else 0) +
    (if s.att then 0b0100 else 0) + (if s.cont then 0b1000 else 0)

/-- Rust `bitflags! MixerSettings`: a bitset of the eight mixer flags. -/
structure MixerSettings where
  disableToneA : Bool
  disableToneB : Bool
  disableToneC : Bool
  disableNoiseA : Bool
  disableNoiseB : Bool
  disableNoiseC : Bool
  outputIOA : Bool
  outputIOB : Bool
deriving DecidableEq, Repr

/-- Rust `MixerSettings::bits()`: the raw byte of the bitset. -/
def MixerSettings.bits (m : MixerSettings) : Nat :=
  (if m.disableToneA then 0b00000001 else 0) + (if m.disableToneB then 0b00000010 else 0) +
    (if m.disableToneC then 0b00000100 else 0) + (if m.disableNoiseA then 0b00001000 else 0) +
    (if m.disableNoiseB then 0b00010000 else 0) + (if m.disableNoiseC then 0b00100000 else 0) +
    (if m.outputIOA then 0b01000000 else 0) + (if m.outputIOB then 0b10000000 else 0)

/-- Rust `set_channel_frequency`: write the low byte of the 16-bit
frequency to the channel's fine register, then the high byte (`as u8`
narrowing) to its rough register. -/
def set_channel_frequency (channel : Channel) (frequency : Nat) : List Step :=
  let regs := match channel with
    | Channel.A => (0x0, 0x1)
    | Channel.B => (0x2, 0x3)
    | Channel.C => (0x4, 0x5)
  set_register_value regs.1 (frequency % 256) ++
    set_register_value regs.2 ((frequency >>> 8) % 256)

/-- Rust `set_noise`: single write to register 0x6. -/
def set_noise (frequency : Nat) : List Step :=
  set_register_value 0x6 frequency

/-- Rust `set_mixer_settings`: single write of the raw bitset byte to
register 0x7. -/
def set_mixer_settings (settings : MixerSettings) : List Step :=
  set_register_value 0x7 settings.bits

/-- Rust `set_channel_level`: Fixed(level) writes `level & 0b1111`,
Envelope writes `0b10000`, to the channel's amplitude register. -/
def set_channel_level (channel : Channel) (level : ChannelLevel) : List Step :=
  let data := match level with
    | ChannelLevel.Fixed level => level &&& 0b1111
    | ChannelLevel.Envelope => 0b10000
  let register := match channel with
    | Channel.A => 0x8
    | Channel.B => 0x9
    | Channel.C => 0xA
  set_register_value register data

/-- Rust `set_envelope_frequency`: low byte to 0xB, high byte to 0xC. -/
def set_envelope_frequency (frequency : Nat) : List Step :=
  set_register_value 0xB (frequency % 256) ++
    set_register_value 0xC ((frequency >>> 8) % 256)

/-- Rust `set_envelope_shape`: single write of the raw bitset byte to
register 0xD. -/
def set_envelope_shape (shape : EnvelopeShape) : List Step :=
  set_register_value 0xD shape.bits

/-- Rust `set_io_port_data`: single write to 0xE for port A, 0xD for
port B. -/
def set_io_port_data (port : IoPort) (data : Nat) : List Step :=
  let register := match port with
    | IoPort.A => 0xE
    | IoPort.B => 0xD
  set_register_value register data

/-! ### Spec-side observation functions -/

/-- Spec-side: the full two-phase register-write transaction as §4.1 of
the spec describes it — address latch (BDIR/BC1 high) with the data lines
driven to the bits of `a`, a settle delay, return to inactive, a settle
delay; then the data lines driven to the bits of `v`, the write pulse
(BDIR high, BC1 low), a settle delay, return to inactive, a settle delay.
Bit `k` of a byte `x` is `x / 2 ^ k % 2`. -/
def fullTransaction (a v : Nat) : List Step :=
  [Step.setp Pin.bdir true, Step.setp Pin.bc1 true,
   Step.setp Pin.d0 (a / 2 ^ 0 % 2 == 1),
   Step.setp Pin.d1 (a / 2 ^ 1 % 2 == 1),
   Step.setp Pin.d2 (a / 2 ^ 2 % 2 == 1),
   Step.setp Pin.d3 (a / 2 ^ 3 % 2 == 1),
   Step.setp Pin.d4 (a / 2 ^ 4 % 2 == 1),
   Step.setp Pin.d5 (a / 2 ^ 5 % 2 == 1),
   Step.setp Pin.d6 (a / 2 ^ 6 % 2 == 1),
   Step.setp Pin.d7 (a / 2 ^ 7 % 2 == 1),
   Step.delay 1,
   Step.setp Pin.bdir false, Step.setp Pin.bc1 false,
   Step.delay 1,
   Step.setp Pin.d0 (v / 2 ^ 0 % 2 == 1),
   Step.setp Pin.d1 (v / 2 ^ 1 % 2 == 1),
   Step.setp Pin.d2 (v / 2 ^ 2 % 2 == 1),
   Step.setp Pin.d3 (v / 2 ^ 3 % 2 == 1),
   Step.setp Pin.d4 (v / 2 ^ 4 % 2 == 1),
   Step.setp Pin.d5 (v / 2 ^ 5 % 2 == 1),
   Step.setp Pin.d6 (v / 2 ^ 6 % 2 == 1),
   Step.setp Pin.d7 (v / 2 ^ 7 % 2 == 1),
   Step.setp Pin.bdir true, Step.setp Pin.bc1 false,
   Step.delay 1,
   Step.setp Pin.bdir false, Step.setp Pin.bc1 false,
   Step.delay 1]

/-- Number of delay-provider invocations in a step list. -/
def delayCount : List Step → Nat
  | [] => 0
  | Step.delay _ :: rest => delayCount rest + 1
  | Step.setp _ _ :: rest => delayCount rest

/-- Number of pin-set actions in a step list. -/
def countSets : List Step → Nat
  | [] => 0
  | Step.setp _ _ :: rest => countSets rest + 1
  | Step.delay _ :: rest => countSets rest

/-- The steps strictly before the `j`-th pin-set action (delays that
precede it included, the `j`-th pin set itself excluded). -/
def takeSets : Nat → List Step → List Step
  | _, [] => []
  | j, Step.delay n :: rest => Step.delay n :: takeSets j rest
  | 0, Step.setp _ _ :: _ => []
  | Nat.succ j, Step.setp p b :: rest => Step.setp p b :: takeSets j rest

/-- The steps from the `j`-th pin-set action on. -/
def dropSets : Nat → List Step → List Step
  | _, [] => []
  | j, Step.delay _ :: rest => dropSets j rest
  | 0, Step.setp p b :: rest => Step.setp p b :: rest
  | Nat.succ j, Step.setp _ _ :: rest => dropSets j rest

/-- Spec-side: a sequence of register-write transactions, one
`set_register_value` per (address, value) pair. -/
def writesSeq (ws : List (Nat × Nat)) : List Step :=
  ws.flatMap fun w => set_register_value w.1 w.2

/-- The level a step list leaves pin `p` at: the level of the last set of
`p`, or `none` if the list never sets `p`. -/
def lastLevel (p : Pin) : List Step → Option Bool
  | [] => none
  | Step.delay _ :: rest => lastLevel p rest
  | Step.setp q b :: rest =>
    match lastLevel p rest with
    | some c => some c
    | none => if q = p then some b else none

/-- Spec-side: the bus is in Inactive mode after a step list — both
control pins were driven and each was last driven low. -/
def inactiveAfter (l : List Step) : Bool :=
  lastLevel Pin.bdir l == some false && lastLevel Pin.bc1 l == some false

/-! ### Helper lemmas -/

/-- `set_register_value` issues exactly the spec's two-phase transaction. -/
theorem set_register_value_eq_fullTransaction (a v : Nat) :
    set_register_value a v = fullTransaction a v := by
  simp [set_register_value, set_address, set_data, address_mode, write_mode,
    inactive_mode, write_u8, fullTransaction, Nat.shiftRight_eq_div_pow,
    Nat.and_one_is_mod]

/-- Under the never-failing oracle, `exec` performs every step and
reports no error. -/
theorem exec_noFail {ε : Type} :
    ∀ (l : List Step) (k : Nat), exec (noFail (ε := ε)) l k = (l, k + countSets l, none) := by
  intro l
  induction l with
  | nil => intro k; simp [exec, countSets]
  | cons s rest ih =>
    intro k
    cases s with
    | delay n => simp [exec, countSets, ih]
    | setp p b =>
      simp only [exec, noFail, countSets, ih, Prod.mk.injEq, true_and, and_true]
      omega

/-- Under `failAt (k + j) e`, replaying from counter `k` performs exactly
the steps before the `j`-th pin set and aborts there with the wrapped
error, provided the list holds more than `j` pin sets. -/
theorem exec_failAt {ε : Type} (e : ε) :
    ∀ (l : List Step) (k j : Nat), j < countSets l →
      exec (failAt (k + j) e) l k = (takeSets j l, k + j, some (Error.PinError e)) := by
  intro l
  induction l with
  | nil => intro k j hj; simp [countSets] at hj
  | cons s rest ih =>
    intro k j hj
    cases s with
    | delay n =>
      simp only [countSets] at hj
      simp [exec, takeSets, ih k j hj]
    | setp p b =>
      cases j with
      | zero =>
        simp [exec, takeSets, failAt]
      | succ jj =>
        simp only [countSets] at hj
        have hne : ¬ k = k + (jj + 1) := by omega
        have harg : k + (jj + 1) = (k + 1) + jj := by omega
        simp only [exec, failAt, if_neg hne, takeSets]
        rw [harg, ih (k + 1) jj (by omega)]

/-- `takeSets` and `dropSets` split a step list at the `j`-th pin set. -/
theorem takeSets_append_dropSets :
    ∀ (j : Nat) (l : List Step), takeSets j l ++ dropSets j l = l := by
  intro j l
  induction l generalizing j with
  | nil => simp [takeSets, dropSets]
  | cons s rest ih =>
    cases s with
    | delay n => simp [takeSets, dropSets, ih]
    | setp p b =>
      cases j with
      | zero => simp [takeSets, dropSets]
      | succ jj => simp [takeSets, dropSets, ih]

/-- The steps before the `j`-th pin set hold exactly `j` pin sets. -/
theorem countSets_takeSets :
    ∀ (j : Nat) (l : List Step), j < countSets l → countSets (takeSets j l) = j := by
  intro j l
  induction l generalizing j with
  | nil => intro hj; simp [countSets] at hj
  | cons s rest ih =>
    intro hj
    cases s with
    | delay n =>
      simp only [countSets] at hj ⊢
      simp [takeSets, countSets, ih j hj]
    | setp p b =>
      cases j with
      | zero => simp [takeSets, countSets]
      | succ jj =>
        simp only [countSets] at hj
        simp [takeSets, countSets, ih jj (by omega)]

/-- A pin level set by the later part of a trace survives prepending any
earlier trace. -/
theorem lastLevel_append_of_some (p : Pin) (b : Bool) :
    ∀ (t l : List Step), lastLevel p l = some b → lastLevel p (t ++ l) = some b := by
  intro t l hl
  induction t with
  | nil => simpa using hl
  | cons s rest ih =>
    cases s with
    | delay n => simpa [lastLevel] using ih
    | setp q c => simp [lastLevel, ih]

/-- A successful register-write transaction leaves BDIR low. -/
theorem lastLevel_bdir_set_register_value (a v : Nat) :
    lastLevel Pin.bdir (set_register_value a v) = some false := by
  simp [set_register_value, set_address, set_data, address_mode, write_mode,
    inactive_mode, write_u8, lastLevel]

/-- A successful register-write transaction leaves BC1 low. -/
theorem lastLevel_bc1_set_register_value (a v : Nat) :
    lastLevel Pin.bc1 (set_register_value a v) = some false := by
  simp [set_register_value, set_address, set_data, address_mode, write_mode,
    inactive_mode, write_u8, lastLevel]

/-- Spec-side: a channel's fine tone-period register (§8). -/
def fineReg : Channel → Nat
  | Channel.A => 0x0
  | Channel.B => 0x2
  | Channel.C => 0x4

/-- Spec-side: a channel's rough tone-period register (§8). -/
def roughReg : Channel → Nat
  | Channel.A => 0x1
  | Channel.B => 0x3
  | Channel.C => 0x5

/-- Spec-side: a channel's amplitude register (§4.2). -/
def ampReg : Channel → Nat
  | Channel.A => 0x8
  | Channel.B => 0x9
  | Channel.C => 0xA

set_option maxRecDepth 100000

/-! ### The claims -/

/-- Claim C1: for every 8-bit address `a` and 8-bit value `v`,
`set_register_value a v` performs the two-phase transaction in exactly
the order of §4.1: address mode (BDIR high, BC1 high), the eight data
lines driven to the bits of `a`, a 1 µs wait, inactive mode (BDIR low,
BC1 low), a 1 µs wait; then the data lines driven to the bits of `v`,
write mode (BDIR high, BC1 low), a 1 µs wait, inactive mode, a 1 µs
wait. -/
theorem C1_two_phase_transaction (a v : Nat) (ha : a < 256) (hv : v < 256) :
    set_register_value a v = fullTransaction a v :=
  set_register_value_eq_fullTransaction a v

theorem C1_witness :
    0xAB < 256 ∧ 0x5C < 256 ∧ set_register_value 0xAB 0x5C = fullTransaction 0xAB 0x5C :=
  ⟨by decide, by decide, C1_two_phase_transaction 0xAB 0x5C (by decide) (by decide)⟩

/-- Claim C2, counterexample: one call to `set_register_value` invokes
the microsecond delay provider four times, not exactly twice as claimed —
already at address 0 and value 0. -/
theorem C2_counterexample :
    delayCount (set_register_value 0 0) = 4 ∧ ¬ delayCount (set_register_value 0 0) = 2 := by
  decide

/-- Claim C2 as amended: for every address in [0,15] and value in
[0,255], one call to `set_register_value a v` invokes the microsecond
delay provider exactly four times (1 µs each): after driving the address
byte in address-latch mode, after the first transition to inactive mode,
after entering write mode, and after the second transition to inactive
mode. -/
theorem C2_four_delays (a v : Nat) (ha : a < 16) (hv : v < 256) :
    delayCount (set_register_value a v) = 4 ∧
    set_register_value a v =
      address_mode ++ write_u8 a ++ [Step.delay 1] ++ inactive_mode ++ [Step.delay 1] ++
        (write_u8 v ++ write_mode ++ [Step.delay 1] ++ inactive_mode ++ [Step.delay 1]) := by
  constructor
  · simp [set_register_value, set_address, set_data, address_mode, write_mode,
      inactive_mode, write_u8, delayCount]
  · simp [set_register_value, set_address, set_data]

theorem C2_witness :
    3 < 16 ∧ 200 < 256 ∧
      (delayCount (set_register_value 3 200) = 4 ∧
        set_register_value 3 200 =
          address_mode ++ write_u8 3 ++ [Step.delay 1] ++ inactive_mode ++ [Step.delay 1] ++
            (write_u8 200 ++ write_mode ++ [Step.delay 1] ++ inactive_mode ++ [Step.delay 1])) :=
  ⟨by decide, by decide, C2_four_delays 3 200 (by decide) (by decide)⟩

/-- Claim C3: for every driver operation (a list of pin-set and delay
steps) in which the `j`-th pin set fails, no subsequent pin set and no
subsequent delay is performed — exactly the steps strictly before the
failing pin set run — and the operation returns that pin error, wrapping
the underlying pin implementation's error value unchanged, with no retry
and no rollback. -/
theorem C3_first_failure_aborts {ε : Type} (l : List Step) (j : Nat) (e : ε)
    (hj : j < countSets l) :
    exec (failAt j e) l 0 = (takeSets j l, j, some (Error.PinError e)) ∧
    countSets (takeSets j l) = j ∧
    takeSets j l ++ dropSets j l = l := by
  refine ⟨?_, countSets_takeSets j l hj, takeSets_append_dropSets j l⟩
  simpa using exec_failAt e l 0 j hj

theorem C3_witness :
    13 < countSets (set_register_value 3 200) ∧
      (exec (failAt 13 (7 : Nat)) (set_register_value 3 200) 0 =
          (takeSets 13 (set_register_value 3 200), 13, some (Error.PinError 7)) ∧
        countSets (takeSets 13 (set_register_value 3 200)) = 13 ∧
        takeSets 13 (set_register_value 3 200) ++ dropSets 13 (set_register_value 3 200) =
          set_register_value 3 200) :=
  ⟨by decide, C3_first_failure_aborts (set_register_value 3 200) 13 7 (by decide)⟩

/-- Claim C4: `clear_all_registers` issues exactly 16 register-write
transactions, addresses 0 through 15 in ascending order, each with value
0; and if the register write for address `j` fails on its first pin set,
only the first `j` transactions were performed and the operation aborts
with the error. -/
theorem C4_clear_all_registers :
    clear_all_registers =
      writesSeq [(0, 0), (1, 0), (2, 0), (3, 0), (4, 0), (5, 0), (6, 0), (7, 0),
        (8, 0), (9, 0), (10, 0), (11, 0), (12, 0), (13, 0), (14, 0), (15, 0)] ∧
    ∀ {ε : Type} (j : Nat) (e : ε), j < 16 →
      exec (failAt (24 * j) e) clear_all_registers 0 =
        (writesSeq ((List.range j).map fun i => (i, 0)), 24 * j,
          some (Error.PinError e)) := by
  constructor
  · rfl
  · intro ε j e hj
    interval_cases j <;> rfl

theorem C4_witness :
    (2 : Nat) < 16 ∧
      exec (failAt (24 * 2) (5 : Nat)) clear_all_registers 0 =
        (writesSeq ((List.range 2).map fun i => (i, 0)), 24 * 2,
          some (Error.PinError 5)) :=
  ⟨by decide, C4_clear_all_registers.2 2 5 (by decide)⟩

/-- Claim C5: for every channel and 16-bit frequency `f`,
`set_channel_frequency` writes the low byte of `f` to the channel's fine
register and then the plainly narrowed high byte to its rough register,
fine first, with A on 0x0/0x1, B on 0x2/0x3, C on 0x4/0x5; in particular
channel A at 0x1234 writes register 0x0 = 0x34 then register 0x1 =
0x12. -/
theorem C5_channel_frequency (c : Channel) (f : Nat) (hf : f < 65536) :
    set_channel_frequency c f = writesSeq [(fineReg c, f % 256), (roughReg c, f >>> 8)] ∧
    set_channel_frequency Channel.A 0x1234 = writesSeq [(0x0, 0x34), (0x1, 0x12)] := by
  have hhi : (f >>> 8) % 256 = f >>> 8 := by
    rw [Nat.shiftRight_eq_div_pow]
    exact Nat.mod_eq_of_lt (by omega)
  constructor
  · cases c <;> simp [set_channel_frequency, writesSeq, fineReg, roughReg, hhi]
  · decide

theorem C5_witness :
    0x1234 < 65536 ∧
      (set_channel_frequency Channel.A 0x1234 =
          writesSeq [(fineReg Channel.A, 0x1234 % 256), (roughReg Channel.A, 0x1234 >>> 8)] ∧
        set_channel_frequency Channel.A 0x1234 = writesSeq [(0x0, 0x34), (0x1, 0x12)]) :=
  ⟨by decide, C5_channel_frequency Channel.A 0x1234 (by decide)⟩

/-- Claim C6: `set_channel_level c (Fixed n)` is a single write of `n`
masked to its low 4 bits to the channel's amplitude register (A on 0x8,
B on 0x9, C on 0xA), and `set_channel_level c Envelope` is a single
write of 0b10000 to that register; in particular Fixed 20 on A writes
register 0x8 = 4 and Envelope on B writes register 0x9 = 0b10000. -/
theorem C6_channel_level :
    (∀ (c : Channel) (n : Nat),
      set_channel_level c (ChannelLevel.Fixed n) = writesSeq [(ampReg c, n % 16)]) ∧
    (∀ c : Channel, set_channel_level c ChannelLevel.Envelope = writesSeq [(ampReg c, 0b10000)]) ∧
    set_channel_level Channel.A (ChannelLevel.Fixed 20) = writesSeq [(0x8, 4)] ∧
    set_channel_level Channel.B ChannelLevel.Envelope = writesSeq [(0x9, 0b10000)] := by
  refine ⟨?_, ?_, by decide, by decide⟩
  · intro c n
    have hmask : n &&& 15 = n % 16 := Nat.and_pow_two_sub_one_eq_mod n 4
    cases c <;> simp [set_channel_level, writesSeq, ampReg, hmask]
  · intro c
    cases c <;> simp [set_channel_level, writesSeq, ampReg]

/-- Claim C7: `set_io_port_data` on port A is a single register write to
0xE and on port B a single register write to 0xD — the very register
address `set_envelope_shape` writes — so the chip's address collision is
preserved, not remapped. -/
theorem C7_io_port_aliasing :
    (∀ x : Nat, set_io_port_data IoPort.A x = writesSeq [(0xE, x)]) ∧
    (∀ x : Nat, set_io_port_data IoPort.B x = writesSeq [(0xD, x)]) ∧
    ∀ (x : Nat) (s : EnvelopeShape),
      set_io_port_data IoPort.B x = set_register_value 0xD x ∧
        set_envelope_shape s = set_register_value 0xD s.bits := by
  refine ⟨?_, ?_, ?_⟩ <;> intros <;> simp [set_io_port_data, set_envelope_shape, writesSeq]

/-- Claim C8: for every `EnvelopeShape` bitset value `s`,
`set_envelope_shape s` is exactly one register write, to the
envelope-shape register 0xD, of the bitset's raw value — which is
already confined to the low 4 bits (the flags Hold, Alternate, Attack,
Continue), so it equals its own low-4-bit restriction. -/
theorem C8_envelope_shape (s : EnvelopeShape) :
    set_envelope_shape s = writesSeq [(0xD, s.bits)] ∧ s.bits % 16 = s.bits ∧ s.bits < 16 := by
  have hlt : s.bits < 16 := by
    rcases s with ⟨h1, h2, h3, h4⟩
    cases h1 <;> cases h2 <;> cases h3 <;> cases h4 <;> decide
  exact ⟨by simp [set_envelope_shape, writesSeq], Nat.mod_eq_of_lt hlt, hlt⟩

/-- Claim C9: the bus is in Inactive mode (BDIR low, BC1 low) at every
operation boundary — construction forces Inactive mode before returning
(or aborts with the wrapped pin error), and every successful
register-write transaction ends with both control pins last driven low,
so that the next transaction starts from Inactive mode and two writes
never interleave their pin sequences. -/
theorem C9_inactive_boundaries {ε : Type} :
    (exec (noFail (ε := ε)) new 0 = (new, 2, none) ∧ inactiveAfter new = true) ∧
    (∀ e : ε, exec (failAt 0 e) new 0 = ([], 0, some (Error.PinError e))) ∧
    (∀ a v : Nat, inactiveAfter (set_register_value a v) = true) ∧
    (∀ t : List Step, inactiveAfter t = true →
      ∀ a v : Nat, inactiveAfter (t ++ set_register_value a v) = true) := by
  refine ⟨⟨rfl, by decide⟩, fun e => rfl, ?_, ?_⟩
  · intro a v
    simp [inactiveAfter, lastLevel_bdir_set_register_value, lastLevel_bc1_set_register_value]
  · intro t ht a v
    have h1 := lastLevel_append_of_some Pin.bdir false t (set_register_value a v)
      (lastLevel_bdir_set_register_value a v)
    have h2 := lastLevel_append_of_some Pin.bc1 false t (set_register_value a v)
      (lastLevel_bc1_set_register_value a v)
    simp [inactiveAfter, h1, h2]

theorem C9_witness :
    inactiveAfter new = true ∧ inactiveAfter (new ++ set_register_value 0 0) = true :=
  ⟨by decide, (C9_inactive_boundaries (ε := Nat)).2.2.2 new (by decide) 0 0⟩

/-- Claim C10: `set_register_value` accepts any 8-bit address with no
range check or masking — for every address above 0xF it still performs
the full two-phase transaction driving all eight bits of the address
onto the data lines, and indeed writing to 0x17 is not the same pin
sequence as writing to 0x17 masked to 4 bits. -/
theorem C10_no_address_masking (a v : Nat) (ha : a < 256) (hv : 0xF < a) :
    set_register_value a v = fullTransaction a v ∧
    set_register_value 0x17 0 ≠ set_register_value (0x17 % 16) 0 :=
  ⟨set_register_value_eq_fullTransaction a v, by decide⟩

theorem C10_witness :
    0x17 < 256 ∧ 0xF < 0x17 ∧
      (set_register_value 0x17 0xFF = fullTransaction 0x17 0xFF ∧
        set_register_value 0x17 0 ≠ set_register_value (0x17 % 16) 0) :=
  ⟨by decide, by decide, C10_no_address_masking 0x17 0xFF (by decide) (by decide)⟩

end Ym2149
